import Mathlib

/-!
Verification of the data-loading transforms in `KITTILoader.py`.

The file shallowly embeds the numeric transforms of the repository in Lean:
floating-point values become real numbers, numpy arrays of points become
lists of a point structure, PIL images become a structure carrying integer
dimensions and a pixel function, and the random draws consumed by the code
(`np.random.choice`, `np.random.random`, `np.random.randn`,
`random.randint`) become explicit oracle parameters.  Code paths that raise
a Python exception are modelled by `Option`, returning `none` exactly where
the source would raise.
-/

/-- Python float modulo `a % b` for a positive modulus `b`:
`a - b * floor (a / b)`.  This is the semantics of `angle % (2 * np.pi)`
on line 87 of `KITTILoader.py`. -/
noncomputable def pymod (a b : ℝ) : ℝ := a - b * ⌊a / b⌋

/-- One row of the `(N, C)` point array: the first three channels are
`(x, y, z)`; any further channels are kept in `rest` and are never touched
by the transforms. -/
structure Pt where
  x : ℝ
  y : ℝ
  z : ℝ
  rest : List ℝ

instance : Inhabited Pt := ⟨⟨0, 0, 0, []⟩⟩

/-- One point of `rotate_pc_along_y` (lines 60-73): the `(x, z)` pair of a
row is multiplied by the transpose of the rotation matrix
`[[cos, -sin], [sin, cos]]`, giving `x' = x cos - z sin`,
`z' = x sin + z cos`; `y` and the extra channels are untouched. -/
noncomputable def rotatePt (p : Pt) (rot_angle : ℝ) : Pt :=
  { x := p.x * Real.cos rot_angle - p.z * Real.sin rot_angle
    y := p.y
    z := p.x * Real.sin rot_angle + p.z * Real.cos rot_angle
    rest := p.rest }

/-- Embedding of `rotate_pc_along_y(pc, rot_angle)` (lines 60-73). -/
noncomputable def rotate_pc_along_y (pc : List Pt) (rot_angle : ℝ) : List Pt :=
  pc.map (fun p => rotatePt p rot_angle)

/-- The bin width `angle_per_class = 2 * np.pi / float(num_class)` of
`angle2class` (line 89). -/
noncomputable def angle_per_class (num_class : ℕ) : ℝ := 2 * Real.pi / (num_class : ℝ)

/-- The value `shifted_angle = (angle + angle_per_class / 2) % (2 * np.pi)`
of `angle2class` (line 90), where `angle` has already been reduced modulo
`2 * np.pi` (line 87). -/
noncomputable def shifted_angle (angle : ℝ) (num_class : ℕ) : ℝ :=
  pymod (pymod angle (2 * Real.pi) + angle_per_class num_class / 2) (2 * Real.pi)

/-- The value `class_id = int(shifted_angle / angle_per_class)` of
`angle2class` (line 91); `shifted_angle` is nonnegative, so Python's
truncation towards zero is the floor. -/
noncomputable def class_id (angle : ℝ) (num_class : ℕ) : ℤ :=
  ⌊shifted_angle angle num_class / angle_per_class num_class⌋

/-- The value `residual_angle = shifted_angle - (class_id * angle_per_class
+ angle_per_class / 2)` of `angle2class` (lines 92-93). -/
noncomputable def residual_angle (angle : ℝ) (num_class : ℕ) : ℝ :=
  shifted_angle angle num_class -
    (class_id angle num_class * angle_per_class num_class + angle_per_class num_class / 2)

/-- Embedding of `angle2class(angle, num_class)` (lines 76-94).  The outer
branch models the `assert (angle >= 0 and angle <= 2 * np.pi)` on line 88
(`none` when the assertion would fail); the inner branch models the
`ZeroDivisionError` that `2 * np.pi / float(0)` would raise on line 89. -/
noncomputable def angle2class (angle : ℝ) (num_class : ℕ) : Option (ℤ × ℝ) :=
  if 0 ≤ pymod angle (2 * Real.pi) ∧ pymod angle (2 * Real.pi) ≤ 2 * Real.pi then
    if num_class = 0 then none
    else some (class_id angle num_class, residual_angle angle num_class)
  else none

/-- The module constant `__box_mean` (lines 17-19). -/
noncomputable def box_mean : ℝ × ℝ × ℝ :=
  (3.996132075471698908, 1.617452830188679469, 1.517264150943395506)

/-- Embedding of `size2class(size)` (lines 98-108): a pure componentwise
subtraction of the fixed mean box size. -/
noncomputable def size2class (size : ℝ × ℝ × ℝ) : ℝ × ℝ × ℝ := size - box_mean

/-- Model of `np.random.choice(n, num, replace=True)` (line 135): `none`
when numpy raises (`n = 0` with at least one sample requested), otherwise
`num` indices below `n`, drawn through the oracle `rnd`. -/
def npRandomChoice (n : ℕ) (num : ℕ) (rnd : ℕ → ℕ) : Option (List ℕ) :=
  if n = 0 ∧ 0 < num then none
  else some ((List.range num).map (fun i => rnd i % n))

/-- Model of `np.clip(x, lo, hi)` (line 156). -/
noncomputable def npClip (x lo hi : ℝ) : ℝ := min (max x lo) hi

/-- The forced-flip branch of `myPointData.__getitem__` (lines 150-152):
negate the `x` channel of every point and of the box center, and replace
the heading by `pi - heading`. -/
noncomputable def flipStep (points : List Pt) (center : Pt) (head : ℝ) :
    List Pt × Pt × ℝ :=
  (points.map (fun p => { p with x := -p.x }),
   { center with x := -center.x },
   Real.pi - head)

/-- The random-shift branch of `myPointData.__getitem__` (lines 154-158):
`dist = np.sqrt(np.sum(c[0]**2 + c[1]**2))` (the `np.sum` of a scalar is
that scalar), `shift = np.clip(g * dist * 0.05, dist * 0.8, dist * 1.2)`
for the Gaussian draw `g`, then the same `shift` is added to the `z`
channel of every point and of the box center. -/
noncomputable def shiftVal (g : ℝ) (center : Pt) : ℝ :=
  npClip (g * Real.sqrt (center.x ^ 2 + center.y ^ 2) * 0.05)
    (Real.sqrt (center.x ^ 2 + center.y ^ 2) * 0.8)
    (Real.sqrt (center.x ^ 2 + center.y ^ 2) * 1.2)

/-- The in-place updates `points[:, 2] += shift` and `box3d_center[2] +=
shift` of lines 157-158, with the single shift value of line 156. -/
noncomputable def shiftStep (g : ℝ) (points : List Pt) (center : Pt) :
    List Pt × Pt :=
  (points.map (fun p => { p with z := p.z + shiftVal g center }),
   { center with z := center.z + shiftVal g center })

/-- Configuration of `myPointData.__init__` (lines 113-120). -/
structure PointConfig where
  num_point : ℕ
  num_angle : ℕ
  random_flip : Bool
  random_shift : Bool
  lidar : Bool

/-- The mapping loaded by `point_loader` (lines 56-57 and 124-143): the
required keys of one stored point record. -/
structure PointRecord where
  img_id : ℕ
  frustum_angle : ℝ
  point_2d : List Pt
  label : List ℤ
  point_velo : List Pt
  velo_label : List ℤ
  box3d_center : Pt
  box3d_size : ℝ × ℝ × ℝ
  heading : ℝ

/-- The random draws consumed by one call of `myPointData.__getitem__`:
the index stream behind `np.random.choice`, the uniform draw of
`np.random.random()` (line 149) and the Gaussian draw of
`np.random.randn()` (line 156). -/
structure PointRng where
  choice : ℕ → ℕ
  flipDraw : ℝ
  gauss : ℝ

/-- The augmentation block of `myPointData.__getitem__` (lines 145-158):
an optional flip (taken when `random_flip` is set and the uniform draw
exceeds `0.5`) followed by an optional shift, returning the augmented
points, box center and heading. -/
noncomputable def augmentStage (cfg : PointConfig) (rng : PointRng)
    (points : List Pt) (center : Pt) (head : ℝ) : List Pt × Pt × ℝ :=
  let t1 := if cfg.random_flip then
      (if (0.5 : ℝ) < rng.flipDraw then flipStep points center head
       else (points, center, head))
    else (points, center, head)
  let t2 := if cfg.random_shift then shiftStep rng.gauss t1.1 t1.2.1
    else (t1.1, t1.2.1)
  (t2.1, t2.2, t1.2.2)

/-- The tuple returned by `myPointData.__getitem__` (lines 168-176); the
trailing file-name string is dropped (never constrained by the spec) and
tensors keep their list form. -/
structure PointItem where
  points : List Pt
  seg : List ℤ
  center : Pt
  angle_c : ℤ
  angle_r : ℝ
  size_r : ℝ × ℝ × ℝ
  rot_angle : ℝ
  img_id : ℕ

/-- Embedding of `myPointData.__getitem__` (lines 122-176): subsample
`num_point` indices with replacement, gather points and labels, augment,
encode the size residual, rotate points and box center by
`pi / 2 + frustum_angle`, and encode the adjusted heading. -/
noncomputable def myPointData.getitem (cfg : PointConfig) (datas : PointRecord)
    (rng : PointRng) : Option PointItem :=
  let rot_angle := Real.pi / 2 + datas.frustum_angle
  let pts0 := if cfg.lidar then datas.point_velo else datas.point_2d
  let seg0 := if cfg.lidar then datas.velo_label else datas.label
  (npRandomChoice pts0.length cfg.num_point rng.choice).bind (fun choice =>
    let points := choice.map (fun j => pts0.getD j default)
    let seg := choice.map (fun j => seg0.getD j 0)
    let aug := augmentStage cfg rng points datas.box3d_center datas.heading
    (angle2class (aug.2.2 - rot_angle) cfg.num_angle).map (fun ar =>
      { points := rotate_pc_along_y aug.1 rot_angle
        seg := seg
        center := (rotate_pc_along_y [aug.2.1] rot_angle).getD 0 default
        angle_c := ar.1
        angle_r := ar.2
        size_r := size2class datas.box3d_size
        rot_angle := rot_angle
        img_id := datas.img_id }))

/-- A PIL image: integer dimensions plus an RGB pixel function. -/
structure Img where
  width : ℤ
  height : ℤ
  pix : ℤ → ℤ → ℝ × ℝ × ℝ

/-- Model of `Image.crop((left, upper, right, lower))` (lines 215-216 and
231-235): the result has size `(right - left, lower - upper)` and reads
source pixels offset by the crop origin (PIL pads out-of-range reads). -/
def cropImg (img : Img) (left upper right lower : ℤ) : Img :=
  { width := right - left
    height := lower - upper
    pix := fun a b => img.pix (a + left) (b + upper) }

/-- Model of the `ToTensor` plus `Normalize` pipeline built by
`get_transform` (lines 27-41): a per-pixel map with the imagenet
statistics, leaving the dimensions unchanged. -/
noncomputable def normPixel (p : ℝ × ℝ × ℝ) : ℝ × ℝ × ℝ :=
  ((p.1 / 255 - 0.485) / 0.229,
   (p.2.1 / 255 - 0.456) / 0.224,
   (p.2.2 / 255 - 0.406) / 0.225)

/-- The transform returned by `get_transform()` applied to an image
(lines 223-225 and 240-242). -/
noncomputable def normalizeImg (img : Img) : Img :=
  { img with pix := fun a b => normPixel (img.pix a b) }

/-- Model of `random.randint(0, n)` for `n ≥ 0` through the oracle `r`:
a value in `{0, ..., n}` (lines 212-213). -/
def randint (r : ℕ) (n : ℕ) : ℕ := r % (n + 1)

/-- Length of the numpy slice `a[start:stop]` along an axis of extent `n`,
for `0 ≤ start` and `0 ≤ stop` (line 220): numpy clamps both bounds to the
axis extent and never yields a negative length. -/
def npSliceLen (n start stop : ℤ) : ℤ := max 0 (min stop n - min start n)

/-- Configuration of `myImageFloder.__init__` (lines 183-193). -/
structure StereoCfg where
  training : Bool
  load : Bool

/-- The two `random.randint` draws of the training branch (lines 212-213). -/
structure StereoRng where
  rx : ℕ
  ry : ℕ

/-- The tuple returned by `myImageFloder.__getitem__`: processed images,
the disparity array dimensions as `(rows, cols)` (`none` for the `dataL =
0` sentinel of load mode), the sample name, and in evaluation mode the two
trailing integers `w, h` (line 244). -/
structure StereoItem where
  leftImg : Img
  rightImg : Img
  dispDims : Option (ℤ × ℤ)
  name : ℕ
  origWH : Option (ℤ × ℤ)

/-- Embedding of `myImageFloder.__getitem__` (lines 195-244).  In training
mode (lines 208-227) a random 512 x 256 crop is taken (`none` models the
`ValueError` of `random.randint(0, n)` for negative `n`); in evaluation
mode (lines 228-244) the bottom-right 1232 x 368 window is cropped, and
the width and height read from the left image BEFORE the crop (line 229)
are returned as the two trailing values (line 244). -/
noncomputable def myImageFloder.getitem (cfg : StereoCfg)
    (left_img right_img disp_img : Img) (name : ℕ) (rng : StereoRng) :
    Option StereoItem :=
  if cfg.training then
    if left_img.width - 512 < 0 ∨ left_img.height - 256 < 0 then none
    else
      let x1 : ℤ := (randint rng.rx (left_img.width - 512).toNat : ℕ)
      let y1 : ℤ := (randint rng.ry (left_img.height - 256).toNat : ℕ)
      some { leftImg := normalizeImg (cropImg left_img x1 y1 (x1 + 512) (y1 + 256))
             rightImg := normalizeImg (cropImg right_img x1 y1 (x1 + 512) (y1 + 256))
             dispDims := if cfg.load then none
               else some (npSliceLen disp_img.height y1 (y1 + 256),
                          npSliceLen disp_img.width x1 (x1 + 512))
             name := name
             origWH := none }
  else
    some { leftImg := normalizeImg (cropImg left_img (left_img.width - 1232)
             (left_img.height - 368) left_img.width left_img.height)
           rightImg := normalizeImg (cropImg right_img (left_img.width - 1232)
             (left_img.height - 368) left_img.width left_img.height)
           dispDims := if cfg.load then none
             else some ((cropImg disp_img (left_img.width - 1232)
                 (left_img.height - 368) left_img.width left_img.height).height,
               (cropImg disp_img (left_img.width - 1232)
                 (left_img.height - 368) left_img.width left_img.height).width)
           name := name
           origWH := some (left_img.width, left_img.height) }

/-! ## Helper lemmas for the Python modulo and the angle encoding -/

theorem pymod_eq_mul_fract (a : ℝ) {b : ℝ} (hb : b ≠ 0) :
    pymod a b = b * Int.fract (a / b) := by
  unfold pymod Int.fract
  field_simp

theorem pymod_nonneg (a : ℝ) {b : ℝ} (hb : 0 < b) : 0 ≤ pymod a b := by
  rw [pymod_eq_mul_fract a hb.ne']
  exact mul_nonneg hb.le (Int.fract_nonneg _)

theorem pymod_lt (a : ℝ) {b : ℝ} (hb : 0 < b) : pymod a b < b := by
  rw [pymod_eq_mul_fract a hb.ne']
  calc b * Int.fract (a / b) < b * 1 :=
        (mul_lt_mul_left hb).mpr (Int.fract_lt_one _)
    _ = b := mul_one b

theorem pymod_eq_self {a b : ℝ} (hb : 0 < b) (h0 : 0 ≤ a) (h1 : a < b) :
    pymod a b = a := by
  unfold pymod
  have hfl : ⌊a / b⌋ = 0 :=
    Int.floor_eq_zero_iff.mpr ⟨div_nonneg h0 hb.le, by rwa [div_lt_one hb]⟩
  rw [hfl]
  simp

theorem pymod_decomp (a b : ℝ) : ∃ k : ℤ, pymod a b = a - b * k :=
  ⟨⌊a / b⌋, rfl⟩

theorem angle2class_eq_some (angle : ℝ) {N : ℕ} (hN : N ≠ 0) :
    angle2class angle N = some (class_id angle N, residual_angle angle N) := by
  unfold angle2class
  rw [if_pos ⟨pymod_nonneg _ Real.two_pi_pos, (pymod_lt _ Real.two_pi_pos).le⟩,
      if_neg hN]

theorem angle_per_class_pos {N : ℕ} (hN : N ≠ 0) : 0 < angle_per_class N := by
  unfold angle_per_class
  have hN' : 0 < (N : ℝ) := by exact_mod_cast Nat.pos_of_ne_zero hN
  positivity

theorem shifted_angle_nonneg (angle : ℝ) (N : ℕ) : 0 ≤ shifted_angle angle N :=
  pymod_nonneg _ Real.two_pi_pos

theorem shifted_angle_lt (angle : ℝ) (N : ℕ) :
    shifted_angle angle N < 2 * Real.pi :=
  pymod_lt _ Real.two_pi_pos

theorem class_id_nonneg (angle : ℝ) {N : ℕ} (hN : N ≠ 0) :
    0 ≤ class_id angle N := by
  unfold class_id
  refine Int.le_floor.mpr ?_
  push_cast
  exact div_nonneg (shifted_angle_nonneg angle N) (angle_per_class_pos hN).le

theorem class_id_lt (angle : ℝ) {N : ℕ} (hN : N ≠ 0) :
    class_id angle N < (N : ℤ) := by
  unfold class_id
  refine Int.floor_lt.mpr ?_
  push_cast
  rw [div_lt_iff (angle_per_class_pos hN)]
  have hmul : (N : ℝ) * angle_per_class N = 2 * Real.pi := by
    unfold angle_per_class
    have hN' : (N : ℝ) ≠ 0 := by exact_mod_cast hN
    field_simp
  rw [hmul]
  exact shifted_angle_lt angle N

theorem class_id_residual_reconstructs (angle : ℝ) {N : ℕ} (hN : N ≠ 0)
    (h0 : 0 ≤ angle) (h1 : angle < 2 * Real.pi) :
    ∃ k : ℤ, (class_id angle N : ℝ) * (2 * Real.pi / N) + residual_angle angle N
      = angle + 2 * Real.pi * k := by
  have ha : pymod angle (2 * Real.pi) = angle :=
    pymod_eq_self Real.two_pi_pos h0 h1
  obtain ⟨m, hm⟩ :=
    pymod_decomp (pymod angle (2 * Real.pi) + angle_per_class N / 2) (2 * Real.pi)
  refine ⟨-m, ?_⟩
  unfold residual_angle shifted_angle
  rw [hm, ha]
  unfold angle_per_class
  push_cast
  ring

theorem residual_angle_bounds (angle : ℝ) {N : ℕ} (hN : N ≠ 0) :
    -(Real.pi / N) ≤ residual_angle angle N ∧
      residual_angle angle N < Real.pi / N := by
  have hapc := angle_per_class_pos hN
  have hfl : (class_id angle N : ℝ) ≤ shifted_angle angle N / angle_per_class N :=
    Int.floor_le _
  have hfu : shifted_angle angle N / angle_per_class N < class_id angle N + 1 :=
    Int.lt_floor_add_one _
  have h1 : (class_id angle N : ℝ) * angle_per_class N ≤ shifted_angle angle N :=
    (le_div_iff hapc).mp hfl
  have h2 : shifted_angle angle N < ((class_id angle N : ℝ) + 1) * angle_per_class N :=
    (div_lt_iff hapc).mp hfu
  have h2' : shifted_angle angle N
      < (class_id angle N : ℝ) * angle_per_class N + angle_per_class N := by
    rw [add_mul, one_mul] at h2
    exact h2
  have hhalf : angle_per_class N / 2 = Real.pi / N := by
    unfold angle_per_class
    ring
  constructor
  · unfold residual_angle
    rw [← hhalf]
    linarith
  · unfold residual_angle
    rw [← hhalf]
    linarith

/-! ## Helper lemmas on lists of points and the rotation -/

theorem getD_map_lt (f : Pt → Pt) (l : List Pt) :
    ∀ i, i < l.length → (l.map f).getD i default = f (l.getD i default) := by
  induction l with
  | nil =>
    intro i hi
    simp at hi
  | cons a t ih =>
    intro i hi
    cases i with
    | zero => simp
    | succ n =>
      simp only [List.map_cons, List.getD_cons_succ]
      exact ih n (by simpa using hi)

theorem getD_map_fix (f : Pt → Pt) (hf : f default = default) (l : List Pt) :
    ∀ i, (l.map f).getD i default = f (l.getD i default) := by
  induction l with
  | nil =>
    intro i
    simp [hf]
  | cons a t ih =>
    intro i
    cases i with
    | zero => simp
    | succ n =>
      simp only [List.map_cons, List.getD_cons_succ]
      exact ih n

theorem getD_of_le (l : List Pt) (i : ℕ) (h : l.length ≤ i) :
    l.getD i default = default := by
  induction l generalizing i with
  | nil => simp
  | cons a t ih =>
    cases i with
    | zero => simp at h
    | succ n =>
      simp only [List.getD_cons_succ]
      exact ih n (by simpa using h)

theorem rotatePt_default (rot_angle : ℝ) : rotatePt default rot_angle = default := by
  show rotatePt ⟨0, 0, 0, []⟩ rot_angle = ⟨0, 0, 0, []⟩
  simp [rotatePt]

theorem rotatePt_zero (p : Pt) : rotatePt p 0 = p := by
  cases p
  simp [rotatePt]

theorem rotatePt_norm (p : Pt) (θ : ℝ) :
    (rotatePt p θ).x ^ 2 + (rotatePt p θ).z ^ 2 = p.x ^ 2 + p.z ^ 2 := by
  simp only [rotatePt]
  linear_combination (p.x ^ 2 + p.z ^ 2) * Real.sin_sq_add_cos_sq θ

theorem rotatePt_neg_cancel (p : Pt) (θ : ℝ) :
    rotatePt (rotatePt p θ) (-θ) = p := by
  cases p with
  | mk x y z r =>
    simp only [rotatePt, Real.cos_neg, Real.sin_neg, Pt.mk.injEq]
    refine ⟨?_, ?_, ?_, ?_⟩
    · linear_combination x * Real.sin_sq_add_cos_sq θ
    · trivial
    · linear_combination z * Real.sin_sq_add_cos_sq θ
    · trivial

/-! ## Claim theorems for the pure geometric encodings -/

/-- C1: for every angle in `[0, 2 pi)` and every class count `N >= 1`,
`angle2class` succeeds and returns a class id in `[0, N)` together with a
residual such that `class_id * (2 pi / N) + residual` is congruent to the
input angle modulo `2 pi`. -/
theorem angle2class_reconstructs (a : ℝ) (N : ℕ) (h0 : 0 ≤ a)
    (h1 : a < 2 * Real.pi) (hN : 1 ≤ N) :
    ∃ cid r, angle2class a N = some (cid, r) ∧ 0 ≤ cid ∧ cid < (N : ℤ) ∧
      ∃ k : ℤ, (cid : ℝ) * (2 * Real.pi / N) + r = a + 2 * Real.pi * k := by
  have hN0 : N ≠ 0 := Nat.one_le_iff_ne_zero.mp hN
  exact ⟨class_id a N, residual_angle a N, angle2class_eq_some a hN0,
    class_id_nonneg a hN0, class_id_lt a hN0,
    class_id_residual_reconstructs a hN0 h0 h1⟩

/-- Witness for C1 at angle `0` with a single class. -/
theorem angle2class_reconstructs_witness :
    (0 : ℝ) ≤ 0 ∧ (0 : ℝ) < 2 * Real.pi ∧ 1 ≤ 1 ∧
      (∃ cid r, angle2class 0 1 = some (cid, r) ∧ 0 ≤ cid ∧
        cid < ((1 : ℕ) : ℤ) ∧
        ∃ k : ℤ, (cid : ℝ) * (2 * Real.pi / ((1 : ℕ) : ℝ)) + r
          = 0 + 2 * Real.pi * k) :=
  ⟨le_refl 0, Real.two_pi_pos, le_refl 1,
    angle2class_reconstructs 0 1 (le_refl 0) Real.two_pi_pos (le_refl 1)⟩

/-- C9: for every real angle the value `angle % (2 pi)` computed inside
`angle2class` lies in `[0, 2 pi]`, so the assertion of line 88 never fails
and `angle2class` returns a value for every class count `N >= 1`. -/
theorem angle2class_assert_ok (a : ℝ) (N : ℕ) (hN : 1 ≤ N) :
    0 ≤ pymod a (2 * Real.pi) ∧ pymod a (2 * Real.pi) ≤ 2 * Real.pi ∧
      (angle2class a N).isSome = true := by
  refine ⟨pymod_nonneg a Real.two_pi_pos, (pymod_lt a Real.two_pi_pos).le, ?_⟩
  rw [angle2class_eq_some a (Nat.one_le_iff_ne_zero.mp hN)]
  rfl

/-- Witness for C9 at angle `0` with a single class. -/
theorem angle2class_assert_ok_witness :
    1 ≤ 1 ∧ (0 ≤ pymod 0 (2 * Real.pi) ∧ pymod 0 (2 * Real.pi) ≤ 2 * Real.pi ∧
      (angle2class 0 1).isSome = true) :=
  ⟨le_refl 1, angle2class_assert_ok 0 1 (le_refl 1)⟩

/-- C10: for every real angle and every class count `N >= 1` the residual
returned by `angle2class` lies in `[-pi/N, pi/N)`: its magnitude never
exceeds half a bin width. -/
theorem angle2class_residual_half_bin (a : ℝ) (N : ℕ) (hN : 1 ≤ N) :
    ∃ cid r, angle2class a N = some (cid, r) ∧ -(Real.pi / N) ≤ r ∧
      r < Real.pi / N := by
  have hN0 : N ≠ 0 := Nat.one_le_iff_ne_zero.mp hN
  exact ⟨class_id a N, residual_angle a N, angle2class_eq_some a hN0,
    (residual_angle_bounds a hN0).1, (residual_angle_bounds a hN0).2⟩

/-- Witness for C10 at angle `0` with a single class. -/
theorem angle2class_residual_half_bin_witness :
    1 ≤ 1 ∧ (∃ cid r, angle2class 0 1 = some (cid, r) ∧
      -(Real.pi / ((1 : ℕ) : ℝ)) ≤ r ∧ r < Real.pi / ((1 : ℕ) : ℝ)) :=
  ⟨le_refl 1, angle2class_residual_half_bin 0 1 (le_refl 1)⟩

/-- C6: `rotate_pc_along_y` preserves `x^2 + z^2` of every point, rotating
by `0` is the identity, and rotating by `θ` followed by `-θ` returns the
original coordinates. -/
theorem rotate_pc_along_y_props (pc : List Pt) (θ : ℝ) :
    (∀ i : ℕ, ((rotate_pc_along_y pc θ).getD i default).x ^ 2 +
        ((rotate_pc_along_y pc θ).getD i default).z ^ 2 =
        (pc.getD i default).x ^ 2 + (pc.getD i default).z ^ 2) ∧
    rotate_pc_along_y pc 0 = pc ∧
    rotate_pc_along_y (rotate_pc_along_y pc θ) (-θ) = pc := by
  refine ⟨?_, ?_, ?_⟩
  · intro i
    unfold rotate_pc_along_y
    rw [getD_map_fix (fun p => rotatePt p θ) (rotatePt_default θ) pc i]
    exact rotatePt_norm (pc.getD i default) θ
  · unfold rotate_pc_along_y
    simp [rotatePt_zero]
  · unfold rotate_pc_along_y
    rw [List.map_map]
    have hcomp : ((fun p => rotatePt p (-θ)) ∘ fun p => rotatePt p θ) = id := by
      funext p
      exact rotatePt_neg_cancel p θ
    rw [hcomp, List.map_id]

/-- C7: `size2class` is exactly inverted by adding the mean box size back:
`size2class s + box_mean = s` for every 3-vector `s`. -/
theorem size2class_inverse (s : ℝ × ℝ × ℝ) : size2class s + box_mean = s := by
  unfold size2class
  exact sub_add_cancel s box_mean

/-! ## Helper lemmas for the augmentation stages -/

theorem negx_default : ({ (default : Pt) with x := -(default : Pt).x }) = default := by
  show ({ (⟨0, 0, 0, []⟩ : Pt) with x := -(⟨0, 0, 0, []⟩ : Pt).x }) = (⟨0, 0, 0, []⟩ : Pt)
  simp

theorem flipStep_fst_length (pts : List Pt) (c : Pt) (h : ℝ) :
    (flipStep pts c h).1.length = pts.length := by
  simp [flipStep]

theorem shiftStep_fst_length (g : ℝ) (pts : List Pt) (c : Pt) :
    (shiftStep g pts c).1.length = pts.length := by
  simp [shiftStep]

theorem flipStep_getD_x (pts : List Pt) (c : Pt) (h : ℝ) (i : ℕ) :
    ((flipStep pts c h).1.getD i default).x = -((pts.getD i default).x) := by
  unfold flipStep
  rw [getD_map_fix (fun p => { p with x := -p.x }) negx_default pts i]

theorem shiftStep_getD_x (g : ℝ) (pts : List Pt) (c : Pt) (i : ℕ) :
    ((shiftStep g pts c).1.getD i default).x = (pts.getD i default).x := by
  by_cases hi : i < pts.length
  · unfold shiftStep
    rw [getD_map_lt (fun p => { p with z := p.z + shiftVal g c }) pts i hi]
  · push_neg at hi
    have h1 : (shiftStep g pts c).1.getD i default = default :=
      getD_of_le _ i (by rw [shiftStep_fst_length]; exact hi)
    rw [h1, getD_of_le pts i hi]

/-! ## Claim theorems for the augmentation stages -/

/-- C4: when `random_flip` is set and the probability branch is taken
(`np.random.random() > 0.5`), the pre-rotation outputs of the augmentation
block have the heading replaced by `pi - head`, the box-center `x`
negated, and the `x` coordinate of every point negated, all in the same
branch. -/
theorem augmentStage_flip (cfg : PointConfig) (rng : PointRng)
    (points : List Pt) (center : Pt) (head : ℝ)
    (hf : cfg.random_flip = true) (hd : (0.5 : ℝ) < rng.flipDraw) :
    (augmentStage cfg rng points center head).2.2 = Real.pi - head ∧
    (augmentStage cfg rng points center head).2.1.x = -center.x ∧
    (augmentStage cfg rng points center head).1.length = points.length ∧
    ∀ i : ℕ, ((augmentStage cfg rng points center head).1.getD i default).x
      = -((points.getD i default).x) := by
  unfold augmentStage
  simp only [hf, if_true, if_pos hd]
  cases hs : cfg.random_shift with
  | false =>
    simp only [Bool.false_eq_true, if_false]
    exact ⟨rfl, rfl, flipStep_fst_length points center head,
      fun i => flipStep_getD_x points center head i⟩
  | true =>
    simp only [if_true]
    refine ⟨rfl, rfl, ?_, ?_⟩
    · rw [shiftStep_fst_length, flipStep_fst_length]
    · intro i
      rw [shiftStep_getD_x, flipStep_getD_x]

/-- Witness for C4 on a one-point cloud with the flip branch forced. -/
theorem augmentStage_flip_witness :
    ((⟨1, 1, true, false, false⟩ : PointConfig).random_flip = true) ∧
    ((0.5 : ℝ) < (⟨fun _ => 0, 1, 0⟩ : PointRng).flipDraw) ∧
    ((augmentStage ⟨1, 1, true, false, false⟩ ⟨fun _ => 0, 1, 0⟩
        [⟨1, 2, 3, []⟩] ⟨4, 5, 6, []⟩ 0).2.2 = Real.pi - 0 ∧
      (augmentStage ⟨1, 1, true, false, false⟩ ⟨fun _ => 0, 1, 0⟩
        [⟨1, 2, 3, []⟩] ⟨4, 5, 6, []⟩ 0).2.1.x = -(⟨4, 5, 6, []⟩ : Pt).x ∧
      (augmentStage ⟨1, 1, true, false, false⟩ ⟨fun _ => 0, 1, 0⟩
        [⟨1, 2, 3, []⟩] ⟨4, 5, 6, []⟩ 0).1.length = ([⟨1, 2, 3, []⟩] : List Pt).length ∧
      ∀ i : ℕ, ((augmentStage ⟨1, 1, true, false, false⟩ ⟨fun _ => 0, 1, 0⟩
          [⟨1, 2, 3, []⟩] ⟨4, 5, 6, []⟩ 0).1.getD i default).x
        = -((([⟨1, 2, 3, []⟩] : List Pt).getD i default).x)) :=
  ⟨rfl, by norm_num,
    augmentStage_flip ⟨1, 1, true, false, false⟩ ⟨fun _ => 0, 1, 0⟩
      [⟨1, 2, 3, []⟩] ⟨4, 5, 6, []⟩ 0 rfl (by norm_num)⟩

/-- C5: the random-shift step computes one shift value, a Gaussian draw
scaled by `0.05 * dist` and clipped into `[0.8 * dist, 1.2 * dist]` where
`dist = sqrt(center.x^2 + center.y^2)` uses only the first two center
components, and adds that same value to the `z` coordinate of every point
and of the box center, changing no other coordinate. -/
theorem shiftStep_adds_same_shift (g : ℝ) (pts : List Pt) (c : Pt) :
    ((shiftStep g pts c).2.x = c.x ∧
     (shiftStep g pts c).2.y = c.y ∧
     (shiftStep g pts c).2.rest = c.rest ∧
     (shiftStep g pts c).2.z = c.z +
       min (max (g * Real.sqrt (c.x ^ 2 + c.y ^ 2) * 0.05)
         (Real.sqrt (c.x ^ 2 + c.y ^ 2) * 0.8))
         (Real.sqrt (c.x ^ 2 + c.y ^ 2) * 1.2)) ∧
    (shiftStep g pts c).1.length = pts.length ∧
    ∀ i : ℕ, i < pts.length →
      ((shiftStep g pts c).1.getD i default).x = (pts.getD i default).x ∧
      ((shiftStep g pts c).1.getD i default).y = (pts.getD i default).y ∧
      ((shiftStep g pts c).1.getD i default).rest = (pts.getD i default).rest ∧
      ((shiftStep g pts c).1.getD i default).z = (pts.getD i default).z +
        min (max (g * Real.sqrt (c.x ^ 2 + c.y ^ 2) * 0.05)
          (Real.sqrt (c.x ^ 2 + c.y ^ 2) * 0.8))
          (Real.sqrt (c.x ^ 2 + c.y ^ 2) * 1.2) := by
  refine ⟨⟨rfl, rfl, rfl, rfl⟩, shiftStep_fst_length g pts c, ?_⟩
  intro i hi
  unfold shiftStep
  rw [getD_map_lt (fun p => { p with z := p.z + shiftVal g c }) pts i hi]
  exact ⟨rfl, rfl, rfl, rfl⟩

/-- Witness for C5 on a one-point cloud at index `0`. -/
theorem shiftStep_adds_same_shift_witness :
    (0 : ℕ) < ([⟨1, 2, 3, []⟩] : List Pt).length ∧
    ((shiftStep 0 [⟨1, 2, 3, []⟩] ⟨3, 4, 0, []⟩).1.getD 0 default).z
      = (([⟨1, 2, 3, []⟩] : List Pt).getD 0 default).z +
        min (max (0 * Real.sqrt ((3 : ℝ) ^ 2 + (4 : ℝ) ^ 2) * 0.05)
          (Real.sqrt ((3 : ℝ) ^ 2 + (4 : ℝ) ^ 2) * 0.8))
          (Real.sqrt ((3 : ℝ) ^ 2 + (4 : ℝ) ^ 2) * 1.2) :=
  ⟨by decide,
    (((shiftStep_adds_same_shift 0 [⟨1, 2, 3, []⟩] ⟨3, 4, 0, []⟩).2.2 0
      (by decide)).2.2.2 : _)⟩

theorem augmentStage_fst_length (cfg : PointConfig) (rng : PointRng)
    (pts : List Pt) (c : Pt) (h : ℝ) :
    (augmentStage cfg rng pts c h).1.length = pts.length := by
  unfold augmentStage
  by_cases hf : cfg.random_flip = true <;> by_cases hs : cfg.random_shift = true <;>
    by_cases hd : (0.5 : ℝ) < rng.flipDraw <;>
      simp [hf, hs, hd, flipStep, shiftStep]

/-! ## Claim theorems for the point-cloud item access -/

/-- C2 counterexample: on a stored record whose point cloud is empty,
`myPointData.__getitem__` does not return `num_point` points at all:
`np.random.choice(0, 16, replace=True)` raises, so the item access fails
even though the claim quantifies over every stored point cloud. -/
theorem getitem_empty_cloud_fails :
    myPointData.getitem ⟨16, 12, false, false, false⟩
      ⟨0, 0, [], [], [], [], ⟨0, 0, 0, []⟩, (0, 0, 0), 0⟩
      ⟨fun _ => 0, 0, 0⟩ = none := rfl

/-- C2 (amended): for every stored record whose selected point cloud is
nonempty (and a positive angle-class count, as the configuration
requires), the item access succeeds and returns exactly `num_point`
points and exactly `num_point` labels. -/
theorem getitem_sample_counts (cfg : PointConfig) (datas : PointRecord)
    (rng : PointRng)
    (hpts : 0 < (if cfg.lidar then datas.point_velo else datas.point_2d).length)
    (hang : 1 ≤ cfg.num_angle) :
    ∃ item, myPointData.getitem cfg datas rng = some item ∧
      item.points.length = cfg.num_point ∧ item.seg.length = cfg.num_point := by
  have hne : (if cfg.lidar then datas.point_velo else datas.point_2d).length ≠ 0 := by
    omega
  have hang' : cfg.num_angle ≠ 0 := by omega
  have hchoice : npRandomChoice
      (if cfg.lidar then datas.point_velo else datas.point_2d).length
      cfg.num_point rng.choice
      = some ((List.range cfg.num_point).map (fun i => rng.choice i %
          (if cfg.lidar then datas.point_velo else datas.point_2d).length)) := by
    unfold npRandomChoice
    exact if_neg (fun hcon => hne hcon.1)
  simp only [myPointData.getitem]
  rw [hchoice]
  simp only [Option.some_bind]
  rw [angle2class_eq_some _ hang']
  simp only [Option.map_some']
  refine ⟨_, rfl, ?_, ?_⟩
  · show (rotate_pc_along_y _ _).length = cfg.num_point
    unfold rotate_pc_along_y
    rw [List.length_map, augmentStage_fst_length]
    simp
  · show (List.map _ _).length = cfg.num_point
    simp

/-- Witness for C2 (amended) on a one-point record with 12 angle classes
and 16 requested samples. -/
theorem getitem_sample_counts_witness :
    0 < (if (⟨16, 12, false, false, false⟩ : PointConfig).lidar
        then (⟨0, 0, [⟨0, 0, 0, []⟩], [1], [], [], ⟨0, 0, 0, []⟩, (0, 0, 0), 0⟩ :
          PointRecord).point_velo
        else (⟨0, 0, [⟨0, 0, 0, []⟩], [1], [], [], ⟨0, 0, 0, []⟩, (0, 0, 0), 0⟩ :
          PointRecord).point_2d).length ∧
    1 ≤ 12 ∧
    ∃ item, myPointData.getitem ⟨16, 12, false, false, false⟩
        ⟨0, 0, [⟨0, 0, 0, []⟩], [1], [], [], ⟨0, 0, 0, []⟩, (0, 0, 0), 0⟩
        ⟨fun _ => 0, 0, 0⟩ = some item ∧
      item.points.length = 16 ∧ item.seg.length = 16 :=
  ⟨by decide, by decide,
    getitem_sample_counts ⟨16, 12, false, false, false⟩
      ⟨0, 0, [⟨0, 0, 0, []⟩], [1], [], [], ⟨0, 0, 0, []⟩, (0, 0, 0), 0⟩
      ⟨fun _ => 0, 0, 0⟩ (by decide) (by decide)⟩

/-! ## Helper lemmas for the stereo item access -/

theorem randint_le (r n : ℕ) : randint r n ≤ n :=
  Nat.lt_succ_iff.mp (Nat.mod_lt r (Nat.succ_pos n))

/-! ## Claim theorems for the stereo item access -/

/-- C3 counterexample: in evaluation mode on a 1242 x 375 input (at least
the crop window), the two trailing integers of the returned tuple are the
PRE-crop dimensions `(1242, 375)`, not the crop dimensions `(1232, 368)`:
line 229 reads `w, h` before the crop and line 244 returns them, while the
post-crop `w1, h1` of line 233 are never returned. -/
theorem getitem_eval_trailing_not_crop :
    ((myImageFloder.getitem ⟨false, true⟩ ⟨1242, 375, fun _ _ => (0, 0, 0)⟩
        ⟨1242, 375, fun _ _ => (0, 0, 0)⟩ ⟨1242, 375, fun _ _ => (0, 0, 0)⟩ 0
        ⟨0, 0⟩).map StereoItem.origWH = some (some ((1242 : ℤ), (375 : ℤ)))) ∧
    ((1242 : ℤ), (375 : ℤ)) ≠ ((1232 : ℤ), (368 : ℤ)) ∧
    (1232 : ℤ) ≤ 1242 ∧ (368 : ℤ) ≤ 375 :=
  ⟨rfl, by decide, by decide, by decide⟩

/-- C3 (amended): in evaluation mode the two trailing integers of the
returned tuple are the width and height of the input left image BEFORE
the crop, for every input. -/
theorem getitem_eval_trailing_orig (cfg : StereoCfg) (l r d : Img)
    (name : ℕ) (rng : StereoRng) (ht : cfg.training = false) :
    ∃ item, myImageFloder.getitem cfg l r d name rng = some item ∧
      item.origWH = some (l.width, l.height) := by
  unfold myImageFloder.getitem
  rw [ht, if_neg Bool.false_ne_true]
  exact ⟨_, rfl, rfl⟩

/-- Witness for C3 (amended) on a 100 x 50 input in evaluation mode. -/
theorem getitem_eval_trailing_orig_witness :
    ((⟨false, true⟩ : StereoCfg).training = false) ∧
    ∃ item, myImageFloder.getitem ⟨false, true⟩ ⟨100, 50, fun _ _ => (0, 0, 0)⟩
        ⟨100, 50, fun _ _ => (0, 0, 0)⟩ ⟨100, 50, fun _ _ => (0, 0, 0)⟩ 0
        ⟨0, 0⟩ = some item ∧ item.origWH = some ((100 : ℤ), (50 : ℤ)) :=
  ⟨rfl, getitem_eval_trailing_orig ⟨false, true⟩ ⟨100, 50, fun _ _ => (0, 0, 0)⟩
    ⟨100, 50, fun _ _ => (0, 0, 0)⟩ ⟨100, 50, fun _ _ => (0, 0, 0)⟩ 0
    ⟨0, 0⟩ rfl⟩

/-- C8: for input images at least as large as the crop window (and a
disparity raster of the same dimensions), the stereo item access succeeds
and the cropped images and disparity array have exactly 512 x 256 pixels
in training mode and exactly 1232 x 368 pixels in evaluation mode,
regardless of the input size. -/
theorem getitem_crop_sizes (cfg : StereoCfg) (l r d : Img) (name : ℕ)
    (rng : StereoRng) (hdw : d.width = l.width) (hdh : d.height = l.height)
    (hsize : if cfg.training then (512 : ℤ) ≤ l.width ∧ (256 : ℤ) ≤ l.height
      else (1232 : ℤ) ≤ l.width ∧ (368 : ℤ) ≤ l.height) :
    ∃ item, myImageFloder.getitem cfg l r d name rng = some item ∧
      item.leftImg.width = (if cfg.training then (512 : ℤ) else 1232) ∧
      item.leftImg.height = (if cfg.training then (256 : ℤ) else 368) ∧
      item.rightImg.width = (if cfg.training then (512 : ℤ) else 1232) ∧
      item.rightImg.height = (if cfg.training then (256 : ℤ) else 368) ∧
      (cfg.load = false → item.dispDims
        = some (if cfg.training then ((256 : ℤ), (512 : ℤ)) else (368, 1232))) := by
  cases htr : cfg.training with
  | false =>
    simp only [htr, Bool.false_eq_true, if_false] at hsize ⊢
    unfold myImageFloder.getitem
    rw [htr, if_neg Bool.false_ne_true]
    refine ⟨_, rfl, ?_, ?_, ?_, ?_, ?_⟩
    · simp only [normalizeImg, cropImg]
      omega
    · simp only [normalizeImg, cropImg]
      omega
    · simp only [normalizeImg, cropImg]
      omega
    · simp only [normalizeImg, cropImg]
      omega
    · intro hload
      simp only [hload, Bool.false_eq_true, if_false, cropImg, Option.some.injEq,
        Prod.mk.injEq]
      constructor <;> omega
  | true =>
    simp only [htr, if_true] at hsize ⊢
    obtain ⟨hw, hh⟩ := hsize
    have hg : ¬(l.width - 512 < 0 ∨ l.height - 256 < 0) := by omega
    unfold myImageFloder.getitem
    rw [htr, if_pos rfl, if_neg hg]
    refine ⟨_, rfl, ?_, ?_, ?_, ?_, ?_⟩
    · simp only [normalizeImg, cropImg]
      omega
    · simp only [normalizeImg, cropImg]
      omega
    · simp only [normalizeImg, cropImg]
      omega
    · simp only [normalizeImg, cropImg]
      omega
    · intro hload
      have hy1 : ((randint rng.ry (l.height - 256).toNat : ℕ) : ℤ) ≤ l.height - 256 := by
        have h1 : randint rng.ry (l.height - 256).toNat ≤ (l.height - 256).toNat :=
          randint_le _ _
        have h2 : (((l.height - 256).toNat : ℕ) : ℤ) = l.height - 256 :=
          Int.toNat_of_nonneg (by omega)
        omega
      have hx1 : ((randint rng.rx (l.width - 512).toNat : ℕ) : ℤ) ≤ l.width - 512 := by
        have h1 : randint rng.rx (l.width - 512).toNat ≤ (l.width - 512).toNat :=
          randint_le _ _
        have h2 : (((l.width - 512).toNat : ℕ) : ℤ) = l.width - 512 :=
          Int.toNat_of_nonneg (by omega)
        omega
      simp only [hload, Bool.false_eq_true, if_false, Option.some.injEq,
        Prod.mk.injEq, npSliceLen, hdw, hdh]
      constructor <;> omega

/-- Witness for C8 in evaluation mode on an input of exactly the crop
window size. -/
theorem getitem_crop_sizes_witness :
    ((⟨1232, 368, fun _ _ => (0, 0, 0)⟩ : Img).width
      = (⟨1232, 368, fun _ _ => (0, 0, 0)⟩ : Img).width) ∧
    (if (⟨false, false⟩ : StereoCfg).training
      then (512 : ℤ) ≤ 1232 ∧ (256 : ℤ) ≤ 368
      else (1232 : ℤ) ≤ 1232 ∧ (368 : ℤ) ≤ 368) ∧
    ∃ item, myImageFloder.getitem ⟨false, false⟩ ⟨1232, 368, fun _ _ => (0, 0, 0)⟩
        ⟨1232, 368, fun _ _ => (0, 0, 0)⟩ ⟨1232, 368, fun _ _ => (0, 0, 0)⟩ 0
        ⟨0, 0⟩ = some item ∧
      item.leftImg.width = 1232 ∧ item.leftImg.height = 368 ∧
      item.rightImg.width = 1232 ∧ item.rightImg.height = 368 ∧
      (((⟨false, false⟩ : StereoCfg).load = false) → item.dispDims
        = some ((368 : ℤ), (1232 : ℤ))) :=
  ⟨rfl, by norm_num,
    getitem_crop_sizes ⟨false, false⟩ ⟨1232, 368, fun _ _ => (0, 0, 0)⟩
      ⟨1232, 368, fun _ _ => (0, 0, 0)⟩ ⟨1232, 368, fun _ _ => (0, 0, 0)⟩ 0
      ⟨0, 0⟩ rfl rfl (by norm_num)⟩
